import Mathlib

set_option linter.unusedVariables false

/- Shallow embedding of `src/hass_client/client.py` (class HomeAssistantClient).

   Python values appearing in wire frames and keyword arguments are embedded as `JVal`;
   dictionaries are association lists.  The mutable attributes of the client object are
   collected in `ClientState`, together with ghost logs (`sentFrames`, `delivered`,
   `taskErrors`, `allocLog`) that record externally visible effects: frames written to the
   websocket, callback invocations scheduled by the dispatcher, exceptions raised inside
   detached send tasks, and the values handed out by `_get_message_id`.

   Coroutines are embedded by explicit state passing; an `await` of a result future is split
   into the synchronous part before the suspension point and the resumption
   (`sendCommandStart` / `sendCommandAwait`).  The dispatcher loop is driven by the list of
   transport messages it receives; the reconnect loop by the list of connect outcomes. -/

inductive JAtom
  | null
  | b (v : Bool)
  | n (v : Nat)
  | s (v : String)
deriving DecidableEq

inductive JVal
  | atom (a : JAtom)
  | obj (fields : List (String × JAtom))
deriving DecidableEq

abbrev Dict := List (String × JVal)

def dlookup : Dict → String → Option JVal
  | [], _ => none
  | (k, v) :: rest, key => if k = key then some v else dlookup rest key

/-- Python dict-literal insertion: `d[k] = v` (later bindings override earlier ones). -/
def dinsert (d : Dict) (k : String) (v : JVal) : Dict :=
  d.filter (fun p => p.1 != k) ++ [(k, v)]

/-- `{k1: v1, k2: v2, ...}` built left to right with override semantics. -/
def dictOf (entries : List (String × JVal)) : Dict :=
  entries.foldl (fun d p => dinsert d p.1 p.2) []

def objLookup : List (String × JAtom) → String → Option JAtom
  | [], _ => none
  | (k, v) :: rest, key => if k = key then some v else objLookup rest key

/-- Python truthiness of a value, used by `if msg["success"]:`. -/
def jTruthy : JVal → Bool
  | .atom .null => false
  | .atom (.b v) => v
  | .atom (.n v) => v != 0
  | .atom (.s v) => v != ""
  | .obj fields => !fields.isEmpty

/-- The exception taxonomy of `hass_client.exceptions` plus the Python builtins the
    client code can raise (`KeyError`, `TypeError`, failed `assert`). -/
inductive HAError
  | notConnected
  | cannotConnect
  | authenticationFailed (m : String)
  | connectionFailed
  | connectionFailedDueToLargeMessage
  | invalidMessage (m : String)
  | failedCommand (id : Nat) (message : JAtom)
  | keyError (k : String)
  | typeError
  | assertionFailed
deriving DecidableEq

/-- State of one `asyncio.Future`: settled at most once. -/
inductive FutureState
  | pending
  | result (v : JVal)
  | exn (e : HAError)
  | cancelled (cause : Option HAError)
deriving DecidableEq

/-- `future.cancel(msg=cause)`: only a pending future becomes cancelled; a settled future
    is unaffected (`cancel` returns False on it). -/
def FutureState.cancel : FutureState → Option HAError → FutureState
  | .pending, cause => .cancelled cause
  | f, _ => f

/-- `future.set_result(v)`: asyncio raises InvalidStateError on a non-pending future and
    the stored state is unchanged either way. -/
def FutureState.setResult : FutureState → JVal → FutureState
  | .pending, v => .result v
  | f, _ => f

def FutureState.setException : FutureState → HAError → FutureState
  | .pending, e => .exn e
  | f, _ => f

/-- One entry of `self._subscriptions`: the `message_base` dict (command name plus the
    keyword arguments) and the callback, represented by an opaque identifier. -/
structure Subscr where
  command : String
  kwargs : List (String × JVal)
  cbId : Nat
deriving DecidableEq

/-- `message_base = {"command": command, **kwargs}` (line 263). -/
def Subscr.messageBase (sub : Subscr) : Dict :=
  dictOf (("command", .atom (.s sub.command)) :: sub.kwargs)

structure ClientState where
  lastMsgId : Nat
  subscriptions : List (Nat × Subscr)
  resultFutures : List (Nat × FutureState)
  /-- `self._shutdown_complete_event`: `none` when the attribute is `None`; `some b`
      when an `asyncio.Event` exists, with `b` recording whether it has been set. -/
  shutdownEvent : Option Bool
  connectedEvt : Bool
  /-- `self._client`: `none` before the first connect, otherwise `some closed`. -/
  client : Option Bool
  maxMsgSize : Nat
  sentFrames : List Dict
  delivered : List (Nat × Dict)
  taskErrors : List HAError
  allocLog : List Nat
deriving DecidableEq

/-- `__init__` (lines 84-102). -/
def initClient : ClientState :=
  { lastMsgId := 1, subscriptions := [], resultFutures := [], shutdownEvent := none,
    connectedEvt := false, client := none, maxMsgSize := 4 * 1024 * 1024,
    sentFrames := [], delivered := [], taskErrors := [], allocLog := [] }

/-- `connected` property (lines 104-107): `self._client is not None and not self._client.closed`. -/
def ClientState.connected (st : ClientState) : Bool :=
  match st.client with
  | some closed => !closed
  | none => false

def futGet (fs : List (Nat × FutureState)) (k : Nat) : Option FutureState :=
  match fs with
  | [] => none
  | (k2, f) :: rest => if k2 = k then some f else futGet rest k

def futSet (fs : List (Nat × FutureState)) (k : Nat) (f : FutureState) :
    List (Nat × FutureState) :=
  fs.filter (fun p => p.1 != k) ++ [(k, f)]

def futPop (fs : List (Nat × FutureState)) (k : Nat) : List (Nat × FutureState) :=
  fs.filter (fun p => p.1 != k)

/-- `_get_message_id` (lines 492-496).  The `async with self._msg_id_lock` serializes all
    allocations, so each one is an atomic read-increment-return; the id handed out is
    additionally recorded in the ghost `allocLog`. -/
def getMessageId (st : ClientState) : ClientState × Nat :=
  let messageId := st.lastMsgId + 1
  ({ st with lastMsgId := messageId, allocLog := st.allocLog ++ [messageId] }, messageId)

/-- `{"id": message_id, "type": command, **kwargs}` (lines 230, 247). -/
def mkMessage (messageId : Nat) (command : String) (kwargs : List (String × JVal)) : Dict :=
  dictOf (("id", .atom (.n messageId)) :: ("type", .atom (.s command)) :: kwargs)

/-- `_send_json_message` (lines 421-438): connected check, then `assert "id" in message`,
    then the write to the websocket. -/
def sendJsonMessage (st : ClientState) (message : Dict) : ClientState × Option HAError :=
  if st.connected = false then (st, some .notConnected)
  else if (dlookup message "id").isNone then (st, some .assertionFailed)
  else ({ st with sentFrames := st.sentFrames ++ [message] }, none)

/-- `send_command` up to and including `await self._send_json_message(message)`
    (lines 223-232).  `messageIdArg = some mid` models `"message_id" in kwargs` (the
    key is popped, so `kwargs` here never contains it); otherwise a fresh id is taken.
    The future is created pending and registered before the send; when the send raises
    `NotConnected` this happens before the `try`, so the registered slot is left in place. -/
def sendCommandStart (st : ClientState) (command : String) (kwargs : List (String × JVal))
    (messageIdArg : Option Nat) : ClientState × Except HAError Nat :=
  let (st1, messageId) :=
    match messageIdArg with
    | some mid => (st, mid)
    | none => getMessageId st
  let message := mkMessage messageId command kwargs
  let st2 := { st1 with resultFutures := futSet st1.resultFutures messageId .pending }
  let r := sendJsonMessage st2 message
  (r.1, match r.2 with
        | some e => .error e
        | none => .ok messageId)

inductive SendOutcome
  | ok (v : JVal)
  | err (e : HAError)
deriving DecidableEq

/-- `send_command` from `return await future` through the `except CancelledError` handler
    and the `finally` pop (lines 233-240), resumed once the future is settled.  A
    cancellation carrying a cause re-raises that cause (`raise e.args[0]`); a bare
    cancellation falls off the end of the handler so the call returns `None`. -/
def sendCommandAwait (st : ClientState) (messageId : Nat) : ClientState × Option SendOutcome :=
  match futGet st.resultFutures messageId with
  | some (.result v) =>
    ({ st with resultFutures := futPop st.resultFutures messageId }, some (.ok v))
  | some (.exn e) =>
    ({ st with resultFutures := futPop st.resultFutures messageId }, some (.err e))
  | some (.cancelled (some cause)) =>
    ({ st with resultFutures := futPop st.resultFutures messageId }, some (.err cause))
  | some (.cancelled none) =>
    ({ st with resultFutures := futPop st.resultFutures messageId }, some (.ok (.atom .null)))
  | some .pending => (st, none)
  | none => (st, none)

/-- `send_command_no_wait` (lines 242-248): allocate an id, then
    `asyncio.create_task(self._send_json_message(message))`.  The detached task's
    exception (if any) is never raised to the caller; it is recorded in `taskErrors`. -/
def sendCommandNoWait (st : ClientState) (command : String)
    (kwargs : List (String × JVal)) : ClientState :=
  let (st1, messageId) := getMessageId st
  let message := mkMessage messageId command kwargs
  let r := sendJsonMessage st1 message
  match r.2 with
  | some e => { r.1 with taskErrors := r.1.taskErrors ++ [e] }
  | none => r.1

/-- `subscribe` up to the `await self.send_command(**message_base, message_id=message_id)`
    (lines 250-267).  Unpacking `message_base` passes the command name and the original
    kwargs; a failure of the inner send propagates before the subscription is stored. -/
def subscribeStart (st : ClientState) (cbId : Nat) (command : String)
    (kwargs : List (String × JVal)) : ClientState × Except HAError (Nat × Subscr) :=
  let sub : Subscr := ⟨command, kwargs, cbId⟩
  let (st1, messageId) := getMessageId st
  let r := sendCommandStart st1 command kwargs (some messageId)
  (r.1, match r.2 with
        | .error e => .error e
        | .ok mid => .ok (mid, sub))

/-- `self._subscriptions[message_id] = sub` (line 268), reached once the awaited
    `send_command` has returned successfully. -/
def subscribeFinish (st : ClientState) (messageId : Nat) (sub : Subscr) : ClientState :=
  { st with subscriptions := st.subscriptions ++ [(messageId, sub)] }

/-- Python `pat in s` on strings. -/
def containsSubstr (s pat : String) : Bool :=
  (s.splitOn pat).length != 1

/-- `remove_listener` (lines 270-282).  The key is recovered by scanning for the stored
    tuple equal to `sub`; `if not key: return` is also taken when the key is the integer 0.
    After popping the record the code reads `message_base["type"]`, although the dict was
    built with key `"command"` (line 263), so a missing `"type"` key raises `KeyError`. -/
def removeListener (st : ClientState) (sub : Subscr) : ClientState × Option HAError :=
  match (st.subscriptions.find? (fun p => p.2 == sub)).map Prod.fst with
  | none => (st, none)
  | some key =>
    if key = 0 then (st, none)
    else
      let st1 := { st with subscriptions := st.subscriptions.filter (fun p => p.1 != key) }
      match dlookup (Subscr.messageBase sub) "type" with
      | none => (st1, some (.keyError "type"))
      | some (.atom (.s t)) =>
        if containsSubstr t "subscribe" then
          (sendCommandNoWait st1 (t.replace "subscribe" "unsubscribe")
            [("subscription", .atom (.n key))], none)
        else (st1, none)
      | some _ => (st1, some .typeError)

/-- `_close_client` (lines 316-321): clear the connected event, close the websocket if it
    is not already closed. -/
def closeClient (st : ClientState) : ClientState :=
  let st1 := { st with connectedEvt := false }
  match st1.client with
  | some false => { st1 with client := some true }
  | _ => st1

/-- `disconnect` up to `await self._shutdown_complete_event.wait()` (lines 324-333):
    no-op when not connected, otherwise create the shutdown event and close the client. -/
def disconnectStart (st : ClientState) : ClientState :=
  if st.connected = false then st
  else closeClient { st with shutdownEvent := some false }

/-- The successful path of `connect` (lines 284-314): the websocket is opened with the
    current `_max_msg_size`, the version/auth handshake succeeds, the dispatcher task is
    started and the connected event is set. -/
def connectSuccess (st : ClientState) : ClientState :=
  { st with client := some false, connectedEvt := true }

/-- `_handle_incoming_message` (lines 393-419). -/
def handleIncomingMessage (st : ClientState) (msg : Dict) : ClientState × Option HAError :=
  match dlookup msg "type" with
  | none => (st, some (.keyError "type"))
  | some ty =>
    if ty = .atom (.s "result") then
      match dlookup msg "id" with
      | none => (st, some (.keyError "id"))
      | some (.atom (.n mid)) =>
        match futGet st.resultFutures mid with
        | none => (st, none)
        | some fut =>
          match dlookup msg "success" with
          | none => (st, some (.keyError "success"))
          | some succ =>
            if jTruthy succ then
              match dlookup msg "result" with
              | none => (st, some (.keyError "result"))
              | some r =>
                ({ st with resultFutures := futSet st.resultFutures mid (fut.setResult r) },
                  none)
            else
              match dlookup msg "error" with
              | none => (st, some (.keyError "error"))
              | some (.obj errObj) =>
                match objLookup errObj "message" with
                | none => (st, some (.keyError "message"))
                | some m =>
                  ({ st with
                     resultFutures := futSet st.resultFutures mid
                       (fut.setException (.failedCommand mid m)) }, none)
              | some _ => (st, some .typeError)
      | some _ => (st, none)
    else
      match dlookup msg "id" with
      | none => (st, some (.keyError "id"))
      | some (.atom (.n mid)) =>
        match st.subscriptions.find? (fun p => p.1 == mid) with
        | some p => ({ st with delivered := st.delivered ++ [(p.2.cbId, msg)] }, none)
        | none => (st, none)
      | some _ => (st, none)

/-- One message received from `self._client.receive()` (lines 340-361), pre-classified by
    its websocket type.  `errTooBig sz` is a `WSMsgType.ERROR` whose close code is
    `MESSAGE_TOO_BIG`, with `sz` the size parsed by the `Message size (\d+)` regex when it
    matches. -/
inductive WSMsg
  | close
  | errTooBig (sizeMatch : Option Nat)
  | errOther
  | nonText
  | badJson
  | text (data : Dict)
deriving DecidableEq

/-- One iteration of the `_process_messages` loop body (lines 340-371).  The second
    component is `some term` when the loop ends with `terminating_exception = term`
    (a `break` gives `some none`); `none` means the loop continues. -/
def processOneMessage (st : ClientState) (msg : WSMsg) :
    ClientState × Option (Option HAError) :=
  match msg with
  | .close => (st, some none)
  | .errTooBig (some size) =>
    ({ st with maxMsgSize := size * 2 }, some (some .connectionFailedDueToLargeMessage))
  | .errTooBig none => (st, some (some .connectionFailed))
  | .errOther => (st, some (some .connectionFailed))
  | .nonText => (st, some (some (.invalidMessage "Received non-Text message")))
  | .badJson => (st, some (some (.invalidMessage "Received invalid JSON.")))
  | .text data =>
    let r := handleIncomingMessage st data
    match r.2 with
    | none => (r.1, none)
    | some e => (r.1, some (some e))

/-- `while not self._client.closed: ...` (lines 338-373) driven by the messages the
    transport delivers; exhausting the list stands for the websocket reporting closed, so
    the loop ends with no terminating exception. -/
def processLoop (st : ClientState) (msgs : List WSMsg) : ClientState × Option HAError :=
  match msgs with
  | [] => (st, none)
  | m :: rest =>
    match st.client with
    | some false =>
      let r := processOneMessage st m
      match r.2 with
      | some term => (r.1, term)
      | none => processLoop r.1 rest
    | _ => (st, none)

inductive ExitAction
  | signalShutdown
  | scheduleReconnect
deriving DecidableEq

/-- Cleanup after the dispatcher loop (lines 375-391): close the client, cancel every
    registered future with the terminating exception, then
    `if self._shutdown_complete_event:` set it, else `self._on_connection_lost()`.
    The test is the truthiness of the Event object itself, not whether it is set. -/
def processMessagesFinish (st : ClientState) (term : Option HAError) :
    ClientState × ExitAction :=
  let st1 := closeClient st
  let st2 := { st1 with
    resultFutures := st1.resultFutures.map
      (fun p : Nat × FutureState => (p.1, p.2.cancel term)) }
  match st2.shutdownEvent with
  | some _ => ({ st2 with shutdownEvent := some true }, .signalShutdown)
  | none => (st2, .scheduleReconnect)

/-- `_process_messages` (lines 335-391). -/
def processMessages (st : ClientState) (msgs : List WSMsg) : ClientState × ExitAction :=
  let r := processLoop st msgs
  processMessagesFinish r.1 r.2

/-- `await self.send_command(**sub[0], message_id=message_id)` inside `auto_reconnect`
    (line 473): the subscribe command is transmitted and, the call being awaited to
    completion on the replay path, its confirmation slot is popped again.  Nothing is
    added to `_subscriptions` here. -/
def resendSubscribeCommand (st : ClientState) (sub : Subscr) (messageId : Nat) : ClientState :=
  let r := sendCommandStart st sub.command sub.kwargs (some messageId)
  match r.2 with
  | .ok mid => { r.1 with resultFutures := futPop r.1.resultFutures mid }
  | .error _ => r.1

/-- The resubscription block of `auto_reconnect` (lines 468-473):
    `subscriptions = list(self._subscriptions.values()); self._subscriptions = {}` and then
    one fresh id plus one `send_command` per saved subscription. -/
def resubscribeAll (st : ClientState) : ClientState :=
  let subscriptions := st.subscriptions.map Prod.snd
  let st1 := { st with subscriptions := [] }
  subscriptions.foldl
    (fun s sub =>
      let (s1, messageId) := getMessageId s
      resendSubscribeCommand s1 sub messageId) st1

/-- One recorded failed attempt of `auto_reconnect`: the attempt counter after the
    increment, the duration passed to `asyncio.sleep`, and whether the post-sleep
    `attempts >= 30` warning fired. -/
structure ReconnectStep where
  attempts : Nat
  sleepTime : Nat
  warned : Bool
deriving DecidableEq

/-- The `while True` loop of `auto_reconnect` (lines 459-487), driven by the outcome of
    each `self.connect()` call (`false` = raises `CannotConnect`).  On success it runs the
    resubscription block and returns; on failure it updates `sleep_time`
    (`if attempts > 20: 60 elif sleep_time > 10: 10`), sleeps, possibly warns, and loops.
    Exhausting the outcome list leaves the loop still running (`none`). -/
def reconnectLoop (st : ClientState) (outcomes : List Bool) (attempts sleepTime : Nat)
    (trace : List ReconnectStep) : Option ClientState × List ReconnectStep :=
  match outcomes with
  | [] => (none, trace)
  | oc :: rest =>
    let attempts2 := attempts + 1
    if oc then
      (some (resubscribeAll (connectSuccess st)), trace)
    else
      let sleepTime2 := if 20 < attempts2 then 60 else if 10 < sleepTime then 10 else sleepTime
      reconnectLoop st rest attempts2 sleepTime2
        (trace ++ [⟨attempts2, sleepTime2, decide (30 ≤ attempts2)⟩])

/-- `auto_reconnect` entry (lines 461-462): `attempts = 0`, `sleep_time = 2`. -/
def autoReconnect (st : ClientState) (outcomes : List Bool) :
    Option ClientState × List ReconnectStep :=
  reconnectLoop st outcomes 0 2 []

/-- Closed form of the trace entry recorded for the m-th failed attempt. -/
def stepFor (m : Nat) : ReconnectStep :=
  ⟨m, if 20 < m then 60 else 2, decide (30 ≤ m)⟩

def leadFailures : List Bool → Nat
  | [] => 0
  | true :: _ => 0
  | false :: rest => leadFailures rest + 1

/-- Outcome of one `await self.send_command(...)` inside `send_retryable_command`. -/
inductive AttemptOutcome
  | ok (v : JVal)
  | largeMessage
  | otherError (e : HAError)

/-- `send_retryable_command` (lines 214-221), driven by the outcomes of the successive
    `send_command` calls.  Only `ConnectionFailedDueToLargeMessage` is caught; it awaits
    `wait_for_connection()` once and loops.  The result pairs the final outcome with the
    number of `send_command` invocations made; `none` means the call is still suspended. -/
def sendRetryable : List AttemptOutcome → Option (SendOutcome × Nat)
  | [] => none
  | .ok v :: _ => some (.ok v, 1)
  | .otherError e :: _ => some (.err e, 1)
  | .largeMessage :: rest =>
    match sendRetryable rest with
    | some (r, n) => some (r, n + 1)
    | none => none

/-- An inbound `{id: X, type: "result", success: true, result: R}` frame. -/
def resultOkFrame (X : Nat) (R : JVal) : Dict :=
  [("id", .atom (.n X)), ("type", .atom (.s "result")),
   ("success", .atom (.b true)), ("result", R)]

/-- An inbound `{id: X, type: "result", success: false, error: {message: M}}` frame. -/
def resultErrFrame (X : Nat) (M : String) : Dict :=
  [("id", .atom (.n X)), ("type", .atom (.s "result")),
   ("success", .atom (.b false)), ("error", .obj [("message", .s M)])]

/-- A send-like operation of the public interface, as issued by one caller task. -/
inductive SendOp
  | cmd (command : String) (kwargs : List (String × JVal))
  | cmdNoWait (command : String) (kwargs : List (String × JVal))
  | sub (cbId : Nat) (command : String) (kwargs : List (String × JVal))

def applySendOp (st : ClientState) (op : SendOp) : ClientState :=
  match op with
  | .cmd c k => (sendCommandStart st c k none).1
  | .cmdNoWait c k => sendCommandNoWait st c k
  | .sub cb c k =>
    let r := subscribeStart st cb c k
    match r.2 with
    | .ok (mid, sb) => subscribeFinish r.1 mid sb
    | .error _ => r.1

/-- A lifecycle event of the whole client: a send-like call, a successful connect, a
    disconnect, a dispatcher epoch, or an unexpected-loss reconnect cycle of `failures`
    failed attempts followed by a successful one. -/
inductive ClientEv
  | send (op : SendOp)
  | connectEv
  | disconnectEv
  | dispatch (msgs : List WSMsg)
  | reconnect (failures : Nat)

def applyClientEv (st : ClientState) (ev : ClientEv) : ClientState :=
  match ev with
  | .send op => applySendOp st op
  | .connectEv => connectSuccess st
  | .disconnectEv => disconnectStart st
  | .dispatch msgs => (processMessages st msgs).1
  | .reconnect n =>
    match (autoReconnect st (List.replicate n false ++ [true])).1 with
    | some st2 => st2
    | none => st

def runEvents (st : ClientState) (evs : List ClientEv) : ClientState :=
  evs.foldl applyClientEv st

def runSendOps (st : ClientState) (ops : List SendOp) : ClientState :=
  runEvents st (ops.map ClientEv.send)

/-- Identifier-allocation invariant: the ids handed out so far are strictly increasing and
    bounded by the current counter. -/
def IdInv (st : ClientState) : Prop :=
  st.allocLog.Pairwise (· < ·) ∧ ∀ x ∈ st.allocLog, x ≤ st.lastMsgId

/-- An established subscription: `connect`, then a completed
    `subscribe(cb, "subscribe_events", event_type=...)` whose confirmation result frame has
    been dispatched and awaited, leaving the subscription registered under id 2. -/
def c1Subscribed : ClientState :=
  match subscribeStart (connectSuccess initClient) 7 "subscribe_events"
      [("event_type", JVal.atom (JAtom.s "all"))] with
  | (s, Except.ok (mid, sb)) =>
    subscribeFinish
      (sendCommandAwait (handleIncomingMessage s (resultOkFrame mid (JVal.atom JAtom.null))).1
        mid).1 mid sb
  | (s, Except.error _) => s

/-- The client after an unexpected connection loss from `c1Subscribed`. -/
def c1AfterLoss : ClientState := (processMessages c1Subscribed [WSMsg.errOther]).1

/-- The client after `auto_reconnect` succeeds on its first attempt and runs the
    resubscription block. -/
def c1AfterReconnect : ClientState :=
  match (autoReconnect c1AfterLoss [true]).1 with
  | some s => s
  | none => c1AfterLoss

/-- An inbound event frame carrying the identifier minted for the replayed subscription. -/
def c1EventFrame : Dict :=
  [("id", JVal.atom (JAtom.n 3)), ("type", JVal.atom (JAtom.s "event")),
   ("event", JVal.atom (JAtom.s "x"))]

/-- A registered subscription used to exercise `remove_listener`. -/
def c6Subscription : Subscr :=
  ⟨"subscribe_events", [("event_type", JVal.atom (JAtom.s "all"))], 7⟩

/-- A connected client holding `c6Subscription` under id 2. -/
def c6State : ClientState :=
  { connectSuccess initClient with subscriptions := [(2, c6Subscription)], lastMsgId := 2 }

/-- Epoch 2 of the `C8` scenario: connect, graceful disconnect completed (the dispatcher
    signalled `_shutdown_complete_event`), then connect again.  The event object created by
    the first `disconnect` is still stored. -/
def c8SecondEpoch : ClientState :=
  connectSuccess (processMessages (disconnectStart (connectSuccess initClient)) []).1

theorem futGet_filter_ne (fs : List (Nat × FutureState)) (k : Nat) :
    futGet (fs.filter (fun p => p.1 != k)) k = none := by
  induction fs with
  | nil => rfl
  | cons p rest ih =>
    by_cases h : p.1 = k
    · simpa [List.filter_cons, h] using ih
    · simpa [List.filter_cons, h, futGet] using ih

theorem futGet_futSet_self (fs : List (Nat × FutureState)) (k : Nat) (f : FutureState) :
    futGet (futSet fs k f) k = some f := by
  induction fs with
  | nil => simp [futSet, futGet]
  | cons p rest ih =>
    by_cases h : p.1 = k
    · simpa [futSet, List.filter_cons, h] using ih
    · simpa [futSet, List.filter_cons, h, futGet] using ih

theorem futGet_futPop_self (fs : List (Nat × FutureState)) (k : Nat) :
    futGet (futPop fs k) k = none :=
  futGet_filter_ne fs k

theorem mem_of_futGet_eq_some {fs : List (Nat × FutureState)} {k : Nat} {f : FutureState}
    (h : futGet fs k = some f) : (k, f) ∈ fs := by
  induction fs with
  | nil => simp [futGet] at h
  | cons p rest ih =>
    rw [futGet] at h
    split at h
    · rename_i heq
      obtain ⟨k2, f2⟩ := p
      obtain rfl := Option.some.inj h
      simp only at heq
      subst heq
      exact List.mem_cons_self _ _
    · exact List.mem_cons_of_mem _ (ih h)

theorem processMessagesFinish_resultFutures (st : ClientState) (term : Option HAError) :
    (processMessagesFinish st term).1.resultFutures
      = st.resultFutures.map (fun p : Nat × FutureState => (p.1, p.2.cancel term)) := by
  cases hc : st.client with
  | none =>
    cases hs : st.shutdownEvent <;> simp [processMessagesFinish, closeClient, hc, hs]
  | some closed =>
    cases closed <;> cases hs : st.shutdownEvent <;>
      simp [processMessagesFinish, closeClient, hc, hs]

/-- C1: evaluation of the code on an active subscription followed by an unexpected loss and
    a successful reconnect.  The replay block of `auto_reconnect` re-sends the subscribe
    command with the fresh id 3, but `_subscriptions` was cleared and never repopulated, so
    the registry is empty and an inbound event frame carrying id 3 is delivered to no
    callback — contradicting the claim that the subscription is again present in the
    registry and its callback receives the event. -/
theorem c1_replay_loses_subscriptions :
    c1Subscribed.subscriptions
      = [(2, ⟨"subscribe_events", [("event_type", JVal.atom (JAtom.s "all"))], 7⟩)] ∧
    (processMessages c1Subscribed [WSMsg.errOther]).2 = ExitAction.scheduleReconnect ∧
    (c1AfterReconnect.sentFrames.getLast?.bind (fun f => dlookup f "id")
      = some (JVal.atom (JAtom.n 3))) ∧
    (c1AfterReconnect.sentFrames.getLast?.bind (fun f => dlookup f "type")
      = some (JVal.atom (JAtom.s "subscribe_events"))) ∧
    c1AfterReconnect.subscriptions = [] ∧
    (handleIncomingMessage c1AfterReconnect c1EventFrame).1.delivered = [] := by
  decide

/-- C6: evaluation of `remove_listener` on a live `subscribe_events` subscription.  The
    local record is deleted, but the code then reads `message_base["type"]` although the
    dict was built as `{"command": command, **kwargs}`, so `KeyError` is raised and the
    best-effort unsubscribe command is never sent (no frame is written, no task error
    beyond the `KeyError` occurs). -/
theorem c6_remove_listener_keyerror :
    (removeListener c6State c6Subscription).2 = some (HAError.keyError "type") ∧
    (removeListener c6State c6Subscription).1.subscriptions = [] ∧
    (removeListener c6State c6Subscription).1.sentFrames = c6State.sentFrames ∧
    (removeListener c6State c6Subscription).1.taskErrors = c6State.taskErrors ∧
    dlookup (Subscr.messageBase c6Subscription) "type" = none ∧
    dlookup (Subscr.messageBase c6Subscription) "command"
      = some (JVal.atom (JAtom.s "subscribe_events")) := by
  decide

/-- C8 counterexample: in an epoch entered after an earlier completed graceful disconnect,
    an unexpected transport error makes the dispatcher exit signal the stale
    `_shutdown_complete_event` (which `disconnect` never reset to `None`) instead of
    handing control to the reconnect supervisor, although no caller-initiated disconnect is
    in progress — the event is already set before the epoch ends.  This falsifies the
    claimed dichotomy "signal if and only if a disconnect was in progress, otherwise
    reconnect". -/
theorem c8_stale_shutdown_event :
    c8SecondEpoch.shutdownEvent = some true ∧
    c8SecondEpoch.connected = true ∧
    (processMessages c8SecondEpoch [WSMsg.errOther]).2 = ExitAction.signalShutdown := by
  decide

/-- C8 amended: on every dispatcher exit the connected event is cleared, the websocket is
    closed if it existed, every registered future is cancelled with the terminating cause,
    and exactly one of the two exit actions occurs — but the choice is decided by whether
    the shutdown event object exists (i.e. whether `disconnect` was ever called), not by
    whether a disconnect is currently in progress; the reconnect supervisor is engaged only
    when no shutdown event was ever created. -/
theorem c8_dispatcher_exit_dichotomy (st : ClientState) (term : Option HAError) :
    (processMessagesFinish st term).1.connectedEvt = false ∧
    (processMessagesFinish st term).1.client = st.client.map (fun _ => true) ∧
    (processMessagesFinish st term).1.resultFutures
      = st.resultFutures.map (fun p : Nat × FutureState => (p.1, p.2.cancel term)) ∧
    (processMessagesFinish st term).2
      = (match st.shutdownEvent with
         | some _ => ExitAction.signalShutdown
         | none => ExitAction.scheduleReconnect) ∧
    (processMessagesFinish st term).1.shutdownEvent = st.shutdownEvent.map (fun _ => true) := by
  refine ⟨?_, ?_, processMessagesFinish_resultFutures st term, ?_, ?_⟩ <;>
    (cases hc : st.client with
     | none =>
       cases hs : st.shutdownEvent <;> simp [processMessagesFinish, closeClient, hc, hs]
     | some closed =>
       cases closed <;> cases hs : st.shutdownEvent <;>
         simp [processMessagesFinish, closeClient, hc, hs])

/-- C2 counterexample: `send_command` invoked on a client that is not connected does raise
    `NotConnected` and writes nothing, but the identifier counter is advanced from 1 to 2
    and a pending slot for the new id 2 is registered and left behind — falsifying "no new
    message identifier is allocated ... no PendingRequest slot is registered". -/
theorem c2_disconnected_send_allocates :
    initClient.connected = false ∧
    (match (sendCommandStart initClient "get_states" [] none).2 with
     | Except.error HAError.notConnected => true
     | _ => false) = true ∧
    (sendCommandStart initClient "get_states" [] none).1.lastMsgId = 2 ∧
    futGet (sendCommandStart initClient "get_states" [] none).1.resultFutures 2
      = some FutureState.pending ∧
    (sendCommandStart initClient "get_states" [] none).1.sentFrames = [] := by
  decide

/-- C7: per large-message failure, `send_retryable_command` waits for reconnection and
    re-sends the command exactly once — a large-message failure followed by a successful
    send makes exactly 2 `send_command` calls — while every other outcome of the first
    `send_command` call (a value or any other exception) is returned or re-raised
    immediately after exactly 1 call, with no automatic retry. -/
theorem c7_retry_only_on_large_message :
    (∀ (v : JVal) (rest : List AttemptOutcome),
        sendRetryable (.largeMessage :: .ok v :: rest) = some (.ok v, 2)) ∧
    (∀ (e : HAError) (rest : List AttemptOutcome),
        sendRetryable (.otherError e :: rest) = some (.err e, 1)) ∧
    (∀ (v : JVal) (rest : List AttemptOutcome),
        sendRetryable (.ok v :: rest) = some (.ok v, 1)) :=
  ⟨fun v rest => rfl, fun e rest => rfl, fun v rest => rfl⟩

/-- C2 amended: on a client that is not connected, `send_command` and `subscribe` raise
    `NotConnected` and `send_command_no_wait` hits `NotConnected` only inside its detached
    send task; nothing is written to the transport and no subscription is registered — but
    each of the three operations advances the identifier counter by one, and
    `send_command`/`subscribe` register a pending slot under the new id and leave it in
    place. -/
theorem c2_disconnected_send_behaviour (st : ClientState) (c : String)
    (kwargs : List (String × JVal)) (cb : Nat) (h : st.connected = false) :
    ((sendCommandStart st c kwargs none).2 = Except.error HAError.notConnected ∧
     (sendCommandStart st c kwargs none).1.sentFrames = st.sentFrames ∧
     (sendCommandStart st c kwargs none).1.lastMsgId = st.lastMsgId + 1 ∧
     futGet (sendCommandStart st c kwargs none).1.resultFutures (st.lastMsgId + 1)
       = some FutureState.pending) ∧
    ((subscribeStart st cb c kwargs).2 = Except.error HAError.notConnected ∧
     (subscribeStart st cb c kwargs).1.sentFrames = st.sentFrames ∧
     (subscribeStart st cb c kwargs).1.subscriptions = st.subscriptions ∧
     (subscribeStart st cb c kwargs).1.lastMsgId = st.lastMsgId + 1 ∧
     futGet (subscribeStart st cb c kwargs).1.resultFutures (st.lastMsgId + 1)
       = some FutureState.pending) ∧
    ((sendCommandNoWait st c kwargs).sentFrames = st.sentFrames ∧
     (sendCommandNoWait st c kwargs).lastMsgId = st.lastMsgId + 1 ∧
     (sendCommandNoWait st c kwargs).taskErrors
       = st.taskErrors ++ [HAError.notConnected]) := by
  cases hc : st.client with
  | none =>
    simp [sendCommandStart, subscribeStart, sendCommandNoWait, getMessageId,
      sendJsonMessage, ClientState.connected, hc, futGet_futSet_self]
  | some closed =>
    have hb : closed = true := by
      cases closed
      · simp [ClientState.connected, hc] at h
      · rfl
    subst hb
    simp [sendCommandStart, subscribeStart, sendCommandNoWait, getMessageId,
      sendJsonMessage, ClientState.connected, hc, futGet_futSet_self]

/-- C2 witness: the amended behaviour at the freshly constructed (disconnected) client. -/
theorem c2_disconnected_send_behaviour_witness :
    initClient.connected = false ∧
    ((sendCommandStart initClient "get_states" [] none).2
        = Except.error HAError.notConnected ∧
     (sendCommandStart initClient "get_states" [] none).1.lastMsgId
        = initClient.lastMsgId + 1) ∧
    (sendCommandNoWait initClient "get_states" []).taskErrors
      = initClient.taskErrors ++ [HAError.notConnected] :=
  ⟨by decide,
   ⟨(c2_disconnected_send_behaviour initClient "get_states" [] 7 (by decide)).1.1,
    (c2_disconnected_send_behaviour initClient "get_states" [] 7 (by decide)).1.2.2.1⟩,
   (c2_disconnected_send_behaviour initClient "get_states" [] 7 (by decide)).2.2.2.2⟩

/-- C4: when the dispatcher tears down with a terminating failure `e` while every
    registered request slot is still pending, every slot is cancelled with that same cause
    (none is lost: the count is preserved), every awaiting `send_command` caller then
    observes exactly `e` (re-raised from the cancellation, not a bare cancellation) and its
    slot is removed, and no cancelled slot can subsequently be resolved with a success
    value. -/
theorem c4_teardown_cancels_pending (st : ClientState) (e : HAError)
    (hp : ∀ p ∈ st.resultFutures, p.2 = FutureState.pending) :
    (processMessagesFinish st (some e)).1.resultFutures.length
        = st.resultFutures.length ∧
    (∀ p ∈ (processMessagesFinish st (some e)).1.resultFutures,
        p.2 = FutureState.cancelled (some e)) ∧
    (∀ mid f,
        futGet (processMessagesFinish st (some e)).1.resultFutures mid = some f →
          (sendCommandAwait (processMessagesFinish st (some e)).1 mid).2
              = some (SendOutcome.err e) ∧
          futGet (sendCommandAwait
              (processMessagesFinish st (some e)).1 mid).1.resultFutures mid = none) ∧
    (∀ p ∈ (processMessagesFinish st (some e)).1.resultFutures, ∀ v : JVal,
        FutureState.setResult p.2 v = FutureState.cancelled (some e)) := by
  have hx := processMessagesFinish_resultFutures st (some e)
  have hall : ∀ p ∈ (processMessagesFinish st (some e)).1.resultFutures,
      p.2 = FutureState.cancelled (some e) := by
    intro p hmem
    rw [hx] at hmem
    obtain ⟨q, hq, rfl⟩ := List.mem_map.mp hmem
    simp only
    rw [hp q hq]
    rfl
  refine ⟨?_, hall, ?_, ?_⟩
  · rw [hx]
    exact List.length_map _ _
  · intro mid f hget
    have hmem := mem_of_futGet_eq_some hget
    have hf := hall _ hmem
    simp only at hf
    subst hf
    exact ⟨by simp [sendCommandAwait, hget],
      by simp [sendCommandAwait, hget, futGet_futPop_self]⟩
  · intro p hmem v
    rw [hall p hmem]
    rfl

/-- C4 witness: two outstanding pending requests cancelled by a teardown caused by
    `ConnectionFailed`. -/
theorem c4_teardown_cancels_pending_witness :
    (∀ p ∈ ({ initClient with
        resultFutures := [(2, FutureState.pending), (3, FutureState.pending)] }
          : ClientState).resultFutures, p.2 = FutureState.pending) ∧
    (∀ p ∈ (processMessagesFinish
        { initClient with
          resultFutures := [(2, FutureState.pending), (3, FutureState.pending)] }
        (some HAError.connectionFailed)).1.resultFutures,
        p.2 = FutureState.cancelled (some HAError.connectionFailed)) :=
  ⟨by decide,
   (c4_teardown_cancels_pending
     { initClient with
       resultFutures := [(2, FutureState.pending), (3, FutureState.pending)] }
     HAError.connectionFailed (by decide)).2.1⟩

/-- C5: dispatching `{id: X, type: "result", success: true, result: R}` onto a pending
    request X stores exactly R in the slot and the awaiting caller receives R; dispatching
    the `success: false` variant makes the caller receive a `FailedCommand` carrying the
    frame's `error.message`; in both cases the slot for X is removed once the caller
    resumes. -/
theorem c5_result_frame_dispatch (st : ClientState) (X : Nat) (R : JVal) (M : String)
    (hX : futGet st.resultFutures X = some FutureState.pending) :
    ((handleIncomingMessage st (resultOkFrame X R)).2 = none ∧
     futGet (handleIncomingMessage st (resultOkFrame X R)).1.resultFutures X
        = some (FutureState.result R) ∧
     (sendCommandAwait (handleIncomingMessage st (resultOkFrame X R)).1 X).2
        = some (SendOutcome.ok R) ∧
     futGet (sendCommandAwait
        (handleIncomingMessage st (resultOkFrame X R)).1 X).1.resultFutures X = none) ∧
    ((handleIncomingMessage st (resultErrFrame X M)).2 = none ∧
     (sendCommandAwait (handleIncomingMessage st (resultErrFrame X M)).1 X).2
        = some (SendOutcome.err (HAError.failedCommand X (JAtom.s M))) ∧
     futGet (sendCommandAwait
        (handleIncomingMessage st (resultErrFrame X M)).1 X).1.resultFutures X = none) := by
  have hok : handleIncomingMessage st (resultOkFrame X R)
      = ({ st with resultFutures := futSet st.resultFutures X (FutureState.result R) },
         none) := by
    simp [handleIncomingMessage, resultOkFrame, dlookup, hX, jTruthy, FutureState.setResult]
  have herr : handleIncomingMessage st (resultErrFrame X M)
      = ({ st with
           resultFutures := futSet st.resultFutures X
             (FutureState.exn (HAError.failedCommand X (JAtom.s M))) }, none) := by
    simp [handleIncomingMessage, resultErrFrame, dlookup, hX, jTruthy, objLookup,
      FutureState.setException]
  rw [hok, herr]
  refine ⟨⟨rfl, ?_, ?_, ?_⟩, ⟨rfl, ?_, ?_⟩⟩ <;>
    simp [sendCommandAwait, futGet_futSet_self, futGet_futPop_self]

/-- C5 witness: a pending request with id 5 resolved by a successful result frame carrying
    the value 42. -/
theorem c5_result_frame_dispatch_witness :
    futGet ({ initClient with resultFutures := [(5, FutureState.pending)] }
      : ClientState).resultFutures 5 = some FutureState.pending ∧
    (sendCommandAwait (handleIncomingMessage
        { initClient with resultFutures := [(5, FutureState.pending)] }
        (resultOkFrame 5 (JVal.atom (JAtom.n 42)))).1 5).2
      = some (SendOutcome.ok (JVal.atom (JAtom.n 42))) :=
  ⟨by decide,
   (c5_result_frame_dispatch
     { initClient with resultFutures := [(5, FutureState.pending)] }
     5 (JVal.atom (JAtom.n 42)) "boom" (by decide)).1.2.2.1⟩

theorem idInv_of_fields {st st2 : ClientState} (h : IdInv st)
    (ha : st2.allocLog = st.allocLog) (hl : st2.lastMsgId = st.lastMsgId) : IdInv st2 := by
  unfold IdInv at *
  rw [ha, hl]
  exact h

theorem idInv_alloc_one {st st2 : ClientState} (h : IdInv st)
    (ha : st2.allocLog = st.allocLog ++ [st.lastMsgId + 1])
    (hl : st2.lastMsgId = st.lastMsgId + 1) : IdInv st2 := by
  obtain ⟨h1, h2⟩ := h
  constructor
  · rw [ha]
    refine List.pairwise_append.mpr ⟨h1, List.pairwise_singleton _ _, ?_⟩
    intro x hx y hy
    simp only [List.mem_singleton] at hy
    subst hy
    exact Nat.lt_succ_of_le (h2 x hx)
  · intro x hx
    rw [ha] at hx
    rw [hl]
    rcases List.mem_append.mp hx with hx2 | hx2
    · exact Nat.le_succ_of_le (h2 x hx2)
    · simp only [List.mem_singleton] at hx2
      omega

theorem sendJsonMessage_allocLog (st : ClientState) (m : Dict) :
    (sendJsonMessage st m).1.allocLog = st.allocLog := by
  unfold sendJsonMessage
  repeat' split
  all_goals rfl

theorem sendJsonMessage_lastMsgId (st : ClientState) (m : Dict) :
    (sendJsonMessage st m).1.lastMsgId = st.lastMsgId := by
  unfold sendJsonMessage
  repeat' split
  all_goals rfl

theorem sendCommandStart_some_fields (st : ClientState) (c : String)
    (k : List (String × JVal)) (mid : Nat) :
    (sendCommandStart st c k (some mid)).1.allocLog = st.allocLog ∧
    (sendCommandStart st c k (some mid)).1.lastMsgId = st.lastMsgId :=
  ⟨sendJsonMessage_allocLog _ _, sendJsonMessage_lastMsgId _ _⟩

theorem sendCommandStart_none_fields (st : ClientState) (c : String)
    (k : List (String × JVal)) :
    (sendCommandStart st c k none).1.allocLog = st.allocLog ++ [st.lastMsgId + 1] ∧
    (sendCommandStart st c k none).1.lastMsgId = st.lastMsgId + 1 :=
  ⟨sendJsonMessage_allocLog _ _, sendJsonMessage_lastMsgId _ _⟩

theorem sendCommandNoWait_fields (st : ClientState) (c : String)
    (k : List (String × JVal)) :
    (sendCommandNoWait st c k).allocLog = st.allocLog ++ [st.lastMsgId + 1] ∧
    (sendCommandNoWait st c k).lastMsgId = st.lastMsgId + 1 := by
  unfold sendCommandNoWait
  dsimp only [getMessageId]
  split <;> exact ⟨sendJsonMessage_allocLog _ _, sendJsonMessage_lastMsgId _ _⟩

theorem subscribeStart_fields (st : ClientState) (cb : Nat) (c : String)
    (k : List (String × JVal)) :
    (subscribeStart st cb c k).1.allocLog = st.allocLog ++ [st.lastMsgId + 1] ∧
    (subscribeStart st cb c k).1.lastMsgId = st.lastMsgId + 1 :=
  ⟨sendJsonMessage_allocLog _ _, sendJsonMessage_lastMsgId _ _⟩

theorem applySendOp_fields (st : ClientState) (op : SendOp) :
    (applySendOp st op).allocLog = st.allocLog ++ [st.lastMsgId + 1] ∧
    (applySendOp st op).lastMsgId = st.lastMsgId + 1 := by
  cases op with
  | cmd c k => exact sendCommandStart_none_fields st c k
  | cmdNoWait c k => exact sendCommandNoWait_fields st c k
  | sub cb c k =>
    unfold applySendOp
    dsimp only
    split <;>
      exact ⟨(subscribeStart_fields st cb c k).1, (subscribeStart_fields st cb c k).2⟩

theorem handleIncomingMessage_fields (st : ClientState) (msg : Dict) :
    (handleIncomingMessage st msg).1.allocLog = st.allocLog ∧
    (handleIncomingMessage st msg).1.lastMsgId = st.lastMsgId := by
  unfold handleIncomingMessage
  repeat' split
  all_goals exact ⟨rfl, rfl⟩

theorem processOneMessage_fields (st : ClientState) (m : WSMsg) :
    (processOneMessage st m).1.allocLog = st.allocLog ∧
    (processOneMessage st m).1.lastMsgId = st.lastMsgId := by
  cases m with
  | close => exact ⟨rfl, rfl⟩
  | errTooBig sz => cases sz <;> exact ⟨rfl, rfl⟩
  | errOther => exact ⟨rfl, rfl⟩
  | nonText => exact ⟨rfl, rfl⟩
  | badJson => exact ⟨rfl, rfl⟩
  | text data =>
    unfold processOneMessage
    dsimp only
    split <;>
      exact ⟨(handleIncomingMessage_fields st data).1, (handleIncomingMessage_fields st data).2⟩

theorem processLoop_fields (msgs : List WSMsg) : ∀ st : ClientState,
    (processLoop st msgs).1.allocLog = st.allocLog ∧
    (processLoop st msgs).1.lastMsgId = st.lastMsgId := by
  induction msgs with
  | nil => intro st; exact ⟨rfl, rfl⟩
  | cons m rest ih =>
    intro st
    have h1 := processOneMessage_fields st m
    unfold processLoop
    rcases hc : st.client with _ | closed
    · simp [hc]
    · cases closed
      · simp only [hc]
        rcases hr : (processOneMessage st m).2 with _ | term
        · simp only [hr]
          exact ⟨(ih _).1.trans h1.1, (ih _).2.trans h1.2⟩
        · simp only [hr]
          exact ⟨h1.1, h1.2⟩
      · simp [hc]

theorem processMessagesFinish_fields (st : ClientState) (term : Option HAError) :
    (processMessagesFinish st term).1.allocLog = st.allocLog ∧
    (processMessagesFinish st term).1.lastMsgId = st.lastMsgId := by
  cases hc : st.client with
  | none =>
    cases hs : st.shutdownEvent <;> simp [processMessagesFinish, closeClient, hc, hs]
  | some closed =>
    cases closed <;> cases hs : st.shutdownEvent <;>
      simp [processMessagesFinish, closeClient, hc, hs]

theorem processMessages_fields (st : ClientState) (msgs : List WSMsg) :
    (processMessages st msgs).1.allocLog = st.allocLog ∧
    (processMessages st msgs).1.lastMsgId = st.lastMsgId := by
  have h1 := processLoop_fields msgs st
  have h2 := processMessagesFinish_fields (processLoop st msgs).1 (processLoop st msgs).2
  exact ⟨h2.1.trans h1.1, h2.2.trans h1.2⟩

theorem disconnectStart_fields (st : ClientState) :
    (disconnectStart st).allocLog = st.allocLog ∧
    (disconnectStart st).lastMsgId = st.lastMsgId := by
  cases hc : st.client with
  | none => simp [disconnectStart, closeClient, ClientState.connected, hc]
  | some closed =>
    cases closed <;> simp [disconnectStart, closeClient, ClientState.connected, hc]

theorem resendSubscribeCommand_fields (st : ClientState) (sub : Subscr) (mid : Nat) :
    (resendSubscribeCommand st sub mid).allocLog = st.allocLog ∧
    (resendSubscribeCommand st sub mid).lastMsgId = st.lastMsgId := by
  unfold resendSubscribeCommand
  dsimp only
  split <;>
    exact ⟨(sendCommandStart_some_fields st sub.command sub.kwargs mid).1,
      (sendCommandStart_some_fields st sub.command sub.kwargs mid).2⟩

theorem idInv_foldl {f : ClientState → Subscr → ClientState}
    (hf : ∀ s x, IdInv s → IdInv (f s x)) :
    ∀ (l : List Subscr) (st : ClientState), IdInv st → IdInv (List.foldl f st l) := by
  intro l
  induction l with
  | nil => intro st h; exact h
  | cons x rest ih =>
    intro st h
    rw [List.foldl_cons]
    exact ih _ (hf st x h)

theorem idInv_resubscribeAll (st : ClientState) (h : IdInv st) :
    IdInv (resubscribeAll st) := by
  unfold resubscribeAll
  refine idInv_foldl ?_ _ _ (idInv_of_fields h rfl rfl)
  intro s x hs
  show IdInv (resendSubscribeCommand (getMessageId s).1 x (getMessageId s).2)
  have h1 := @idInv_alloc_one s (getMessageId s).1 hs rfl rfl
  have h2 := resendSubscribeCommand_fields (getMessageId s).1 x (getMessageId s).2
  exact idInv_of_fields h1 h2.1 (by rw [h2.2])

theorem idInv_reconnectLoop (outcomes : List Bool) :
    ∀ (st : ClientState) (a s : Nat) (tr : List ReconnectStep) (st2 : ClientState),
      (reconnectLoop st outcomes a s tr).1 = some st2 → IdInv st → IdInv st2 := by
  induction outcomes with
  | nil =>
    intro st a s tr st2 h hi
    simp [reconnectLoop] at h
  | cons oc rest ih =>
    intro st a s tr st2 h hi
    cases oc
    · simp only [reconnectLoop, Bool.false_eq_true, if_false] at h
      exact ih st (a + 1) _ _ st2 h hi
    · simp only [reconnectLoop, if_true] at h
      obtain rfl := Option.some.inj h
      exact idInv_resubscribeAll _ (idInv_of_fields hi rfl rfl)

theorem idInv_applyClientEv (st : ClientState) (ev : ClientEv) (h : IdInv st) :
    IdInv (applyClientEv st ev) := by
  cases ev with
  | send op =>
    exact idInv_alloc_one h (applySendOp_fields st op).1 (applySendOp_fields st op).2
  | connectEv => exact idInv_of_fields h rfl rfl
  | disconnectEv =>
    exact idInv_of_fields h (disconnectStart_fields st).1 (disconnectStart_fields st).2
  | dispatch msgs =>
    exact idInv_of_fields h (processMessages_fields st msgs).1 (processMessages_fields st msgs).2
  | reconnect n =>
    unfold applyClientEv autoReconnect
    dsimp only
    rcases hr : (reconnectLoop st (List.replicate n false ++ [true]) 0 2 []).1 with _ | st2
    · exact h
    · exact idInv_reconnectLoop _ st 0 2 [] st2 hr h

theorem idInv_runEvents (evs : List ClientEv) :
    ∀ st : ClientState, IdInv st → IdInv (runEvents st evs) := by
  induction evs with
  | nil => intro st h; exact h
  | cons ev rest ih =>
    intro st h
    unfold runEvents at *
    rw [List.foldl_cons]
    exact ih _ (idInv_applyClientEv st ev h)

/-- C3: any interleaving of send-like operations (send_command, send_command_no_wait,
    subscribe) issued on a connected client hands out identifiers that are strictly
    increasing in allocation order, hence pairwise distinct; the `_msg_id_lock` makes each
    allocation atomic, so a list of operations models any concurrent schedule. -/
theorem c3_identifier_allocation (ops : List SendOp) :
    ((runSendOps (connectSuccess initClient) ops).allocLog).Pairwise (· < ·) ∧
    ((runSendOps (connectSuccess initClient) ops).allocLog).Nodup := by
  have hbase : IdInv (connectSuccess initClient) := by
    constructor
    · exact List.Pairwise.nil
    · intro x hx
      simp [connectSuccess, initClient] at hx
  have h := idInv_runEvents (ops.map ClientEv.send) (connectSuccess initClient) hbase
  exact ⟨h.1, h.1.imp Nat.ne_of_lt⟩

theorem lastMsgId_le_foldl {f : ClientState → Subscr → ClientState}
    (hf : ∀ s x, s.lastMsgId ≤ (f s x).lastMsgId) :
    ∀ (l : List Subscr) (st : ClientState), st.lastMsgId ≤ (List.foldl f st l).lastMsgId := by
  intro l
  induction l with
  | nil => intro st; exact Nat.le_refl _
  | cons x rest ih =>
    intro st
    rw [List.foldl_cons]
    exact Nat.le_trans (hf st x) (ih _)

theorem lastMsgId_le_resubscribeAll (st : ClientState) :
    st.lastMsgId ≤ (resubscribeAll st).lastMsgId := by
  have hf : ∀ (s : ClientState) (x : Subscr),
      s.lastMsgId ≤ (resendSubscribeCommand (getMessageId s).1 x (getMessageId s).2).lastMsgId := by
    intro s x
    rw [(resendSubscribeCommand_fields (getMessageId s).1 x (getMessageId s).2).2]
    exact Nat.le_succ _
  unfold resubscribeAll
  dsimp only
  exact lastMsgId_le_foldl hf (st.subscriptions.map Prod.snd) { st with subscriptions := [] }

theorem lastMsgId_le_reconnectLoop (outcomes : List Bool) :
    ∀ (st : ClientState) (a s : Nat) (tr : List ReconnectStep) (st2 : ClientState),
      (reconnectLoop st outcomes a s tr).1 = some st2 → st.lastMsgId ≤ st2.lastMsgId := by
  induction outcomes with
  | nil =>
    intro st a s tr st2 h
    simp [reconnectLoop] at h
  | cons oc rest ih =>
    intro st a s tr st2 h
    cases oc
    · simp only [reconnectLoop, Bool.false_eq_true, if_false] at h
      exact ih st (a + 1) _ _ st2 h
    · simp only [reconnectLoop, if_true] at h
      obtain rfl := Option.some.inj h
      exact lastMsgId_le_resubscribeAll (connectSuccess st)

theorem lastMsgId_le_applyClientEv (st : ClientState) (ev : ClientEv) :
    st.lastMsgId ≤ (applyClientEv st ev).lastMsgId := by
  cases ev with
  | send op =>
    show st.lastMsgId ≤ (applySendOp st op).lastMsgId
    rw [(applySendOp_fields st op).2]
    exact Nat.le_succ _
  | connectEv => exact Nat.le_refl _
  | disconnectEv =>
    exact le_of_eq (disconnectStart_fields st).2.symm
  | dispatch msgs =>
    exact le_of_eq (processMessages_fields st msgs).2.symm
  | reconnect n =>
    unfold applyClientEv autoReconnect
    dsimp only
    rcases hr : (reconnectLoop st (List.replicate n false ++ [true]) 0 2 []).1 with _ | st2
    · exact Nat.le_refl _
    · exact lastMsgId_le_reconnectLoop _ st 0 2 [] st2 hr

/-- C10: the counter starts at 1 in `__init__`, each `_get_message_id` call returns and
    stores the previous value plus one (so the first id ever handed out is 2), no lifecycle
    operation — `disconnect`, a successful `connect`, dispatcher teardown, or a reconnect
    cycle with resubscription — ever resets it (each leaves the counter unchanged or larger),
    and over any whole-lifetime event sequence the ids handed out are strictly increasing. -/
theorem c10_counter_never_reset :
    initClient.lastMsgId = 1 ∧
    (getMessageId initClient).2 = 2 ∧
    (∀ st : ClientState, (getMessageId st).2 = st.lastMsgId + 1 ∧
        (getMessageId st).1.lastMsgId = st.lastMsgId + 1) ∧
    (∀ st : ClientState, (disconnectStart st).lastMsgId = st.lastMsgId) ∧
    (∀ st : ClientState, (connectSuccess st).lastMsgId = st.lastMsgId) ∧
    (∀ (st : ClientState) (term : Option HAError),
        (processMessagesFinish st term).1.lastMsgId = st.lastMsgId) ∧
    (∀ (st : ClientState) (ev : ClientEv),
        st.lastMsgId ≤ (applyClientEv st ev).lastMsgId) ∧
    (∀ evs : List ClientEv, ((runEvents initClient evs).allocLog).Pairwise (· < ·)) := by
  refine ⟨rfl, rfl, fun st => ⟨rfl, rfl⟩, fun st => (disconnectStart_fields st).2,
    fun st => rfl, fun st term => (processMessagesFinish_fields st term).2,
    lastMsgId_le_applyClientEv, fun evs => ?_⟩
  have hbase : IdInv initClient := by
    constructor
    · exact List.Pairwise.nil
    · intro x hx
      simp [initClient] at hx
  exact (idInv_runEvents evs initClient hbase).1

theorem reconnectLoop_never_gives_up (n : Nat) :
    ∀ (st : ClientState) (a s : Nat) (tr : List ReconnectStep),
      (reconnectLoop st (List.replicate n false) a s tr).1 = none := by
  induction n with
  | zero => intro st a s tr; rfl
  | succ n ih =>
    intro st a s tr
    rw [List.replicate_succ]
    simp only [reconnectLoop, Bool.false_eq_true, if_false]
    exact ih st (a + 1) _ _

theorem reconnectLoop_trace_closed (outcomes : List Bool) :
    ∀ (st : ClientState) (k : Nat) (tr : List ReconnectStep),
      (reconnectLoop st outcomes k (if 20 < k then 60 else 2) tr).2
        = tr ++ (List.range (leadFailures outcomes)).map (fun i => stepFor (k + i + 1)) := by
  induction outcomes with
  | nil =>
    intro st k tr
    simp [reconnectLoop, leadFailures]
  | cons oc rest ih =>
    intro st k tr
    cases oc
    · have hs : (if 20 < k + 1 then 60
            else if 10 < (if 20 < k then 60 else 2) then 10 else if 20 < k then 60 else 2)
          = (if 20 < k + 1 then 60 else 2) := by
        by_cases h1 : 20 < k + 1
        · simp [h1]
        · have h2 : ¬ 20 < k := by omega
          simp [h1, h2]
      simp only [reconnectLoop, Bool.false_eq_true, if_false]
      rw [hs]
      rw [ih]
      have harg : ∀ i : Nat, k + 1 + i + 1 = k + (i + 1) + 1 := by intro i; omega
      simp [leadFailures, List.range_succ_eq_map, List.map_map, Function.comp, stepFor,
        harg, Nat.succ_eq_add_one]
    · simp [reconnectLoop, leadFailures]

/-- C9: the reconnect loop never terminates while `connect` keeps raising `CannotConnect`
    (any number of consecutive failures leaves it still retrying), and the trace of failed
    attempts is exact: the i-th failure (0-based) is attempt i+1, is followed by a sleep of
    2 seconds while the attempt count is at most 20 and of 60 seconds beyond that (with no
    further growth), and emits the diagnostic warning exactly when the attempt count has
    reached 30. -/
theorem c9_reconnect_backoff :
    (∀ (st : ClientState) (n : Nat),
        (autoReconnect st (List.replicate n false)).1 = none) ∧
    (∀ (st : ClientState) (outcomes : List Bool) (i : Nat) (step : ReconnectStep),
        (autoReconnect st outcomes).2.get? i = some step →
          step.attempts = i + 1 ∧
          step.sleepTime = (if 20 < i + 1 then 60 else 2) ∧
          step.warned = decide (30 ≤ i + 1)) := by
  constructor
  · intro st n
    exact reconnectLoop_never_gives_up n st 0 2 []
  · intro st outcomes i step h
    have ht : (autoReconnect st outcomes).2
        = (List.range (leadFailures outcomes)).map (fun i => stepFor (i + 1)) := by
      have h0 := reconnectLoop_trace_closed outcomes st 0 []
      norm_num at h0
      simpa [autoReconnect] using h0
    rw [ht, List.get?_map] at h
    rcases ho : (List.range (leadFailures outcomes)).get? i with _ | a
    · rw [ho] at h
      simp at h
    · rw [ho] at h
      have hi : i < leadFailures outcomes := by
        have h2 := (List.get?_eq_some.mp ho).1
        simpa [List.length_range] using h2
      have ha : (List.range (leadFailures outcomes)).get? i = some i := List.get?_range hi
      rw [ho] at ha
      obtain rfl := Option.some.inj ha
      simp only [Option.map_some'] at h
      obtain rfl := Option.some.inj h
      exact ⟨rfl, rfl, rfl⟩

/-- C9 witness: the 30th failed attempt of a 31-failure run sleeps 60 seconds and warns. -/
theorem c9_reconnect_backoff_witness :
    ((autoReconnect initClient (List.replicate 31 false)).2.get? 29
        = some ⟨30, 60, true⟩) ∧
    ((⟨30, 60, true⟩ : ReconnectStep).attempts = 29 + 1 ∧
     (⟨30, 60, true⟩ : ReconnectStep).sleepTime = (if 20 < 29 + 1 then 60 else 2) ∧
     (⟨30, 60, true⟩ : ReconnectStep).warned = decide (30 ≤ 29 + 1)) :=
  ⟨by decide,
   c9_reconnect_backoff.2 initClient (List.replicate 31 false) 29 ⟨30, 60, true⟩ (by decide)⟩
